import Mathlib

/-!
Verification development for the CSP-to-Procreate brush converter
(src/csp2procreate.py).  The Python source is shallowly embedded:

* a variant-table field is absent, SQL NULL (Python None) or a number;
  Python floats are modelled as rationals, so every arithmetic step of the
  source is reproduced exactly (the only transcendental operation, the
  float power nc ** 0.75 inside map_csp_to_wet_mix, is abstracted as an
  explicit function parameter pw);
* code that can raise (TypeError on None arithmetic, IndexError on list
  indexing) returns Option / Except;
* the binary-plist object graph is a list of slots holding records
  (string-keyed association lists), strings, numbers, booleans and UID
  indirections into the same slot list, exactly as plistlib presents it.
-/

/-- One field of the Variant row: absent from the row, present but NULL
(Python None), or a numeric value. -/
inductive Fld where
  | absent : Fld
  | null : Fld
  | num : ℚ → Fld
deriving DecidableEq

/-- The Variant row read by read_variant_row, restricted to the columns the
converter reads.  Fields default to absent. -/
structure Variant where
  BrushSize : Fld := Fld.absent
  BrushInterval : Fld := Fld.absent
  BrushUseWaterColor : Fld := Fld.absent
  BrushMixColor : Fld := Fld.absent
  BrushMixAlpha : Fld := Fld.absent
  BrushFlow : Fld := Fld.absent
  BrushRotationRandomInSpray : Fld := Fld.absent
  BrushUseSpray : Fld := Fld.absent
  BrushRotationInSpray : Fld := Fld.absent
  BrushRotation : Fld := Fld.absent
  BrushPatternOrderType : Fld := Fld.absent
  BrushRotationRandomScale : Fld := Fld.absent
  BrushSprayBias : Fld := Fld.absent
  BrushRevision : Fld := Fld.absent
  BrushUseIn : Fld := Fld.absent
  BrushUseOut : Fld := Fld.absent
  BrushInLength : Fld := Fld.absent
  BrushOutLength : Fld := Fld.absent
  BrushInRatio : Fld := Fld.absent
  BrushOutRatio : Fld := Fld.absent
  BrushRotationEffector : Fld := Fld.absent
deriving DecidableEq

/-- Python variant.get(key): absent key gives None, a NULL column gives
None, a numeric column gives its value. -/
def pyGet : Fld → Option ℚ
  | Fld.absent => none
  | Fld.null => none
  | Fld.num q => some q

/-- Python variant.get(key, default): the default is returned only when the
key is absent; a NULL column still gives None. -/
def pyGetD : Fld → ℚ → Option ℚ
  | Fld.absent, d => some d
  | Fld.null, _ => none
  | Fld.num q, _ => some q

/-- Python value or default: None and 0 are falsy and fall through to the
default, any other number is returned unchanged. -/
def pyOr : Option ℚ → ℚ → ℚ
  | none, d => d
  | some q, d => if q = 0 then d else q

/-- Python bool(value): None and 0 are falsy. -/
def pyTruthy : Option ℚ → Bool
  | none => false
  | some q => decide (q ≠ 0)

/-- Python min(a, b) on two numbers: the first argument wins ties. -/
def pymin (a b : ℚ) : ℚ := if b < a then b else a

/-- Python max(a, b) on two numbers: the first argument wins ties. -/
def pymax (a b : ℚ) : ℚ := if a < b then b else a

/-- csp_to_plotSpacing from the source: size and interval default through
get-with-default and a falsy-or, the ratio is scaled by a three-bucket
fudge factor and clamped to the interval from 0.01 to 1.0. -/
def csp_to_plotSpacing (variant : Variant) : ℚ :=
  let size_px := pyOr (pyGetD variant.BrushSize 1) 1
  let interval_px := pyOr (pyGetD variant.BrushInterval 0) 0
  if size_px ≤ 0 then 0.01
  else
    let raw_spacing := interval_px / size_px
    let fudge_factor : ℚ :=
      if size_px < 50 then 0.15 else if size_px < 100 then 0.3 else 0.6
    let adjusted_spacing := raw_spacing * fudge_factor
    pymax 0.01 (pymin 1.0 adjusted_spacing)

/-- The raw use-watercolor flag: bool(variant.get("BrushUseWaterColor", 0)). -/
def useWaterColor (variant : Variant) : Bool :=
  pyTruthy (pyGetD variant.BrushUseWaterColor 0)

/-- The raw mix-color read shared by both mappers:
float(variant.get("BrushMixColor", 0.0) or 0). -/
def rawMixColor (variant : Variant) : ℚ :=
  pyOr (pyGetD variant.BrushMixColor 0) 0

/-- The raw mix-alpha read shared by both mappers:
float(variant.get("BrushMixAlpha", 0.0) or 0). -/
def rawMixAlpha (variant : Variant) : ℚ :=
  pyOr (pyGetD variant.BrushMixAlpha 0) 0

/-- The flow read of map_csp_rendering_flags:
float(variant.get("BrushFlow", 1.0) or 1.0). -/
def renderFlow (variant : Variant) : ℚ :=
  pyOr (pyGetD variant.BrushFlow 1) 1

/-- The flow read of map_csp_to_wet_mix:
float(variant.get("BrushFlow", 100) or 100). -/
def wetFlow (variant : Variant) : ℚ :=
  pyOr (pyGetD variant.BrushFlow 100) 100

/-- Normalized mix-color of map_csp_to_wet_mix:
max(0.0, min(1.0, mix_col/100.0)). -/
def wetNC (variant : Variant) : ℚ := pymax 0 (pymin 1 (rawMixColor variant / 100))

/-- Normalized mix-alpha of map_csp_to_wet_mix. -/
def wetNA (variant : Variant) : ℚ := pymax 0 (pymin 1 (rawMixAlpha variant / 100))

/-- Normalized flow of map_csp_to_wet_mix. -/
def wetNF (variant : Variant) : ℚ := pymax 0 (pymin 1 (wetFlow variant / 100))

/-- The three rendering booleans produced by map_csp_rendering_flags. -/
structure RenderFlags where
  renderingMaxTransfer : Bool
  renderingModulatedTransfer : Bool
  renderingRecursiveMixing : Bool
deriving DecidableEq

/-- map_csp_rendering_flags from the source: Light Glaze defaults, then the
recursive-mixing gate, then the Intense / Heavy / Uniform override of the
two transfer flags. -/
def map_csp_rendering_flags (variant : Variant) : RenderFlags :=
  let use_watercolor := useWaterColor variant
  let mix_color := rawMixColor variant
  let mix_alpha := rawMixAlpha variant
  let brush_flow := renderFlow variant
  -- Light Glaze
  let flags : RenderFlags := ⟨true, false, false⟩
  if use_watercolor = true ∨ mix_color > 0.05 ∨ mix_alpha > 0.05 then
    let flags := { flags with renderingRecursiveMixing := true }
    if mix_color ≥ 0.75 ∨ mix_alpha ≥ 0.75 then
      -- Intense Glaze
      { flags with renderingMaxTransfer := true, renderingModulatedTransfer := true }
    else if brush_flow > 0.8 then
      -- Heavy Glaze
      { flags with renderingMaxTransfer := true, renderingModulatedTransfer := false }
    else
      -- Uniform Blending
      { flags with renderingMaxTransfer := false, renderingModulatedTransfer := true }
  else flags

/-- The four wet-mix outputs of map_csp_to_wet_mix. -/
structure WetMix where
  wetMixDilution : ℚ
  wetMixCharge : ℚ
  wetMixAttack : ℚ
  wetMixPull : ℚ
deriving DecidableEq

/-- map_csp_to_wet_mix from the source.  The float power nc ** 0.75 (gamma
equal to 0.75) is abstracted as the parameter pw, since a rational cannot
carry an exact three-quarter power; every other float operation is exact. -/
def map_csp_to_wet_mix (pw : ℚ → ℚ) (variant : Variant) : WetMix :=
  let use_wc := useWaterColor variant
  let nc := wetNC variant
  let na := wetNA variant
  let nf := wetNF variant
  let dilution : ℚ :=
    if use_wc = false ∧ nc < 0.5 then 0
    else
      let cap : ℚ := 0.7
      let base := pw nc
      let flow_brake := 0.5 + 0.5 * (1 - nf)
      let alpha_push := 0.2 * na
      pymin cap (base * cap * flow_brake + alpha_push * cap)
  let charge := pymax 0.2 (1 - dilution)
  let attack := 1 - 0.5 * na
  let pull : ℚ := if use_wc then 0.6 else 0
  ⟨dilution, charge, attack, pull⟩

/-!
Stage 1: PNG extraction (_extract_png_from_layer and the per-row loop of
extract_pngs_from_sut).  Blobs are byte lists; markers are the ASCII bytes
of PNG and IEND.
-/

/-- The three ASCII bytes of the start marker b"PNG". -/
def PNG_SIG : List Nat := [80, 78, 71]

/-- The four ASCII bytes of the end marker IEND_MARKER = b"IEND". -/
def IEND_MARKER : List Nat := [73, 69, 78, 68]

/-- Does pat occur in blob starting at index i (Python slice compare)? -/
def matchesAt (blob pat : List Nat) (i : Nat) : Bool :=
  decide ((blob.drop i).take pat.length = pat)

/-- Python bytes.rfind: the highest index at which pat occurs, or -1. -/
def rfind (blob pat : List Nat) : Int :=
  match ((List.range blob.length).filter (fun i => matchesAt blob pat i)).getLast? with
  | some i => Int.ofNat i
  | none => -1

/-- Python blob a:b slicing for the non-negative bounds the source produces
(begin = pos_png - 1 with pos_png at least 1, end = pos_iend + 4). -/
def pySlice (l : List Nat) (a b : Int) : List Nat :=
  (l.take b.toNat).drop a.toNat

/-- _extract_png_from_layer from the source: last PNG occurrence must be at
a positive offset, last IEND occurrence must exist, and the returned bytes
run from one before the PNG marker to four past the IEND marker. -/
def extract_png_from_layer (blob : List Nat) : Except String (List Nat) :=
  let pos_png := rfind blob PNG_SIG
  if pos_png ≤ 0 then Except.error "PNG signature not found in layer blob"
  else
    let b0 := pos_png - 1
    let pos_iend := rfind blob IEND_MARKER
    if pos_iend = -1 then Except.error "IEND marker not found in layer blob"
    else Except.ok (pySlice blob b0 (pos_iend + 4))

/-- The row loop of extract_pngs_from_sut: every row gets the next index,
a row whose extraction raises is skipped with a warning and processing
continues with the remaining rows. -/
def extract_pngs_from_sut : Nat → List (List Nat) → List (Nat × List Nat)
  | _, [] => []
  | idx, blob :: rest =>
    match extract_png_from_layer blob with
    | Except.ok png => (idx, png) :: extract_pngs_from_sut (idx + 1) rest
    | Except.error _ => extract_pngs_from_sut (idx + 1) rest

/-!
Stage 2: the serialized object graph of Brush.archive and the
finalise_seed_brush patcher.
-/

/-- A value of the unarchived plist graph: a UID indirection into the slot
list, an integer, a float (exact rational here), a string, a boolean, or a
record (an insertion-ordered dictionary). -/
inductive PVal where
  | uid : Nat → PVal
  | int : Int → PVal
  | real : ℚ → PVal
  | str : String → PVal
  | bool : Bool → PVal
  | dict : List (String × PVal) → PVal

/-- A record: string keys to values, in insertion order. -/
abbrev Dict := List (String × PVal)

/-- Python dict get: the value at the first matching key. -/
def dGet : Dict → String → Option PVal
  | [], _ => none
  | (k', v) :: t, k => if k' = k then some v else dGet t k

/-- Python key in dict. -/
def hasKey (d : Dict) (k : String) : Bool := (dGet d k).isSome

/-- Python dict assignment: replace the value of an existing key, else
append the new key at the end. -/
def dSet : Dict → String → PVal → Dict
  | [], k, v => [(k, v)]
  | (k', v') :: t, k, v =>
    if k' = k then (k, v) :: t else (k', v') :: dSet t k v

/-- Outcome of the resolve while loop, run with explicit fuel: done with
the reached non-UID value (and the slot it lives in, when it is a slot of
the table rather than an inline value), an IndexError on an out-of-range
UID, or spin when the loop is still running after fuel iterations. -/
inductive RRes where
  | done : Option Nat → PVal → RRes
  | indexError : RRes
  | spin : RRes

/-- resolve from finalise_seed_brush: follow UID indirection until a
non-UID value is reached.  The source loop has no guard, so the embedding
takes fuel; spin at every fuel means the Python loop never terminates. -/
def resolveRef (objs : List PVal) : Nat → Option Nat → PVal → RRes
  | fuel, loc, v =>
    match v with
    | PVal.uid n =>
      match fuel with
      | 0 => RRes.spin
      | fuel' + 1 =>
        match objs[n]? with
        | none => RRes.indexError
        | some w => resolveRef objs fuel' (some n) w
    | w => RRes.done loc w

/-- The values finalise_seed_brush computes before its patch loop
(lines 253 to 281 of the source).  Option records a value that is Python
None and will raise if arithmetic is later applied to it. -/
structure SeedParams where
  spacing : ℚ
  min_px : ℚ
  max_px : ℚ
  opacity : ℚ
  flow_val : ℚ
  randomized : Bool
  BrushRotation : Option ℚ
  BrushPatternOrderType : Option ℚ
  BrushRotationRandomScale : ℚ
  interval_px : Option ℚ
  BrushSprayBias : Option ℚ
  jitter_val : ℚ
  BrushUseIn : Bool
  BrushUseOut : Bool
  BrushInLength : Option ℚ
  BrushOutLength : Option ℚ
  BrushInRatio : Option ℚ
  BrushOutRatio : Option ℚ
  render : RenderFlags
  wet : WetMix
  angle_sensitive : Bool

/-- The pre-loop parameter block of finalise_seed_brush.  A none result is
an uncaught Python exception: min(1000, None) raises on a NULL flow,
variant.get("BrushRotationRandomScale", 0)/100 raises on a NULL scale, and
variant.get("BrushRevision")/100 raises whenever BrushRevision is absent
or NULL.  BrushUseIn and BrushUseOut are stored as the truth value the
source tests them for. -/
def computeSeedParams (pw : ℚ → ℚ) (variant : Variant) : Option SeedParams := do
  let spacing := csp_to_plotSpacing variant
  -- min_px, max_px, opacity = 0.02, 3.0, 1.0
  let flowRaw ← pyGetD variant.BrushFlow 1000
  let flow_val := pymax 0 (pymin 1000 flowRaw)
  let randomized :=
    (match variant.BrushRotationRandomInSpray with
     | Fld.num q => decide (q ≠ 0)      -- not (randomized == 0)
     | _ => true)
    && pyTruthy (pyGet variant.BrushUseSpray)
    && pyTruthy (pyGet variant.BrushRotationInSpray)
  let rotation := pyGet variant.BrushRotation
  let orderType := pyGetD variant.BrushPatternOrderType 0
  let rrs ← pyGetD variant.BrushRotationRandomScale 0
  let rotationRandomScale := rrs / 100
  let interval := pyGet variant.BrushInterval
  let sprayBias := pyGet variant.BrushSprayBias
  let rev ← pyGet variant.BrushRevision
  let jitter := rev / 100 * 2
  let useIn := pyTruthy (pyGet variant.BrushUseIn)
  let useOut := pyTruthy (pyGet variant.BrushUseOut)
  let inLength := pyGet variant.BrushInLength
  let outLength := pyGet variant.BrushOutLength
  let inRat := pyGet variant.BrushInRatio
  let outRat := pyGet variant.BrushOutRatio
  let render := map_csp_rendering_flags variant
  let wet := map_csp_to_wet_mix pw variant
  let angle := decide (pyGet variant.BrushRotationEffector = some 3)
  pure ⟨spacing, 0.02, 3, 1, flow_val, randomized, rotation, orderType,
    rotationRandomScale, interval, sprayBias, jitter, useIn, useOut,
    inLength, outLength, inRat, outRat, render, wet, angle⟩

/-- obj key = value when the key is already present (the shape of almost
every per-occurrence write in the patch loop). -/
def su (d : Dict) (k : String) (v : PVal) : Dict :=
  if hasKey d k then dSet d k v else d

/-- Guarded write whose value computation can raise: when the key is
present the value must exist (none models float(None) or None arithmetic
raising TypeError); when the key is absent nothing is evaluated. -/
def suF (d : Dict) (k : String) (o : Option PVal) : Option Dict :=
  if hasKey d k then
    match o with
    | none => none
    | some v => some (dSet d k v)
  else some d

/-- Steps (c) to (o) of the patch loop: the per-occurrence writes applied
to one record, in source order. -/
def fieldUpdates (p : SeedParams) (d : Dict) : Option Dict := do
  -- (c) spacing, (d) minSize, (e) maxSize, (f) opacity
  let d := su d "plotSpacing" (PVal.real p.spacing)
  let d := su d "minSize" (PVal.real p.min_px)
  let d := su d "maxSize" (PVal.real p.max_px)
  let d := su d "maxOpacity" (PVal.real p.opacity)
  -- (g) rotation: float(BrushRotation) raises when the field was None
  let d ← suF d "shapeRotation" (p.BrushRotation.map PVal.real)
  -- (h) randomized
  let d := su d "shapeRandomise" (PVal.bool p.randomized)
  -- (i) scatter: written to every record that has shapeRandomise
  let d := if hasKey d "shapeRandomise" then
      dSet d "shapeScatter"
        (PVal.real (if p.BrushPatternOrderType = some 3 then p.BrushRotationRandomScale else 0))
    else d
  -- (j) FlipX
  let d := su d "shapeFlipXJitter" (PVal.bool (p.BrushPatternOrderType = some 3))
  -- (k) jitter
  let d := su d "plotJitter" (PVal.real p.jitter_val)
  -- (l) taper
  let d := su d "taperPressure" (PVal.real 0)
  let d ← if p.BrushUseIn || p.BrushUseOut then
      suF d "pencilTaperStartLength" (p.BrushInLength.map (fun q => PVal.real (q / 100 / 4)))
    else pure d
  let d ← if p.BrushUseIn || p.BrushUseOut then
      suF d "pencilTaperEndLength" (p.BrushOutLength.map (fun q => PVal.real (q / 100 / 2)))
    else pure d
  -- (m) render mode
  let d := su d "renderingMaxTransfer" (PVal.bool p.render.renderingMaxTransfer)
  let d := su d "renderingModulatedTransfer" (PVal.bool p.render.renderingModulatedTransfer)
  let d := su d "renderingRecursiveMixing" (PVal.bool p.render.renderingRecursiveMixing)
  -- (n) wet-mix
  let d := su d "dynamicsMix" (PVal.real p.wet.wetMixDilution)
  let d := su d "dynamicsLoad" (PVal.real p.wet.wetMixCharge)
  let d := su d "dynamicsPressureMix" (PVal.real p.wet.wetMixAttack)
  let d := su d "dynamicsWetAccumulation" (PVal.real p.wet.wetMixPull)
  -- (o) shape input-style for angle sensitivity
  let d := if p.angle_sensitive then
      let d := su d "shapeAzimuth" (PVal.bool true)
      let d := su d "shapeRoll" (PVal.bool true)
      let d := su d "shapeRollMode" (PVal.int 1)
      su d "shapeOrientation" (PVal.int 1)
    else d
  pure d

/-- Step (a) of the patch loop: claim the creation timestamp once.  The
creationDate value is resolved through the slot table; when it reaches a
record with an NS.time key that record's NS.time is set to now and the
stamped flag is claimed.  Returns the slot list, the current record (which
changes when the resolved record is the current slot or inline in it) and
the new stamped flag; none is a spinning resolve loop or an IndexError. -/
def stepA (objs : List PVal) (i : Nat) (d : Dict) (stamped : Bool) (now : ℚ) :
    Option (List PVal × Dict × Bool) :=
  if stamped then some (objs, d, stamped)
  else
    match dGet d "creationDate" with
    | none => some (objs, d, stamped)
    | some cref =>
      match resolveRef objs (objs.length + 1) none cref with
      | RRes.spin => none
      | RRes.indexError => none
      | RRes.done loc v =>
        match v with
        | PVal.dict cd =>
          if hasKey cd "NS.time" then
            let cd' := dSet cd "NS.time" (PVal.real now)
            match loc with
            | some j =>
              if j = i then some (objs.set j (PVal.dict cd'), cd', true)
              else some (objs.set j (PVal.dict cd'), d, true)
            | none => some (objs, dSet d "creationDate" (PVal.dict cd'), true)
          else some (objs, d, stamped)
        | _ => some (objs, d, stamped)

/-- A Python list index: UIDs index through their payload, ints directly,
bools as 0 or 1; anything else is a TypeError. -/
def pyToIndex : PVal → Option Int
  | PVal.uid n => some (Int.ofNat n)
  | PVal.int i => some i
  | PVal.bool b => some (if b then 1 else 0)
  | _ => none

/-- Python list index resolution incl. the one negative wrap-around;
out-of-range assignment is an IndexError. -/
def pyIdx (len : Nat) (i : Int) : Option Nat :=
  if 0 ≤ i then (if i < Int.ofNat len then some i.toNat else none)
  else (if 0 ≤ i + Int.ofNat len then some (i + Int.ofNat len).toNat else none)

/-- Step (b) of the patch loop: claim the visible name once, by writing
new_name over the slot the name value indexes
(objs at obj.get("name") = new_name).  The third component records whether
the current slot itself was overwritten (the record is then detached from
the slot list and its later field updates are invisible). -/
def stepB (objs : List PVal) (i : Nat) (d : Dict) (renamed : Bool)
    (new_name : String) : Option (List PVal × Bool × Bool) :=
  if renamed then some (objs, renamed, false)
  else
    match dGet d "name" with
    | none => some (objs, renamed, false)
    | some nv =>
      match pyToIndex nv with
      | none => none
      | some ix =>
        match pyIdx objs.length ix with
        | none => none
        | some j => some (objs.set j (PVal.str new_name), true, j == i)

/-- One iteration of the patch loop body for the slot at index i. -/
def patchStep (p : SeedParams) (new_name : String) (now : ℚ)
    (objs : List PVal) (i : Nat) (stamped renamed : Bool) :
    Option (List PVal × Bool × Bool) :=
  match objs[i]? with
  | some (PVal.dict d0) =>
    match stepA objs i d0 stamped now with
    | none => none
    | some (objs1, d1, stamped1) =>
      match stepB objs1 i d1 renamed new_name with
      | none => none
      | some (objs2, renamed1, detached) =>
        match fieldUpdates p d1 with
        | none => none
        | some d2 =>
          let objs3 := if detached then objs2 else objs2.set i (PVal.dict d2)
          some (objs3, stamped1, renamed1)
  | _ => some (objs, stamped, renamed)

/-- The for-loop of finalise_seed_brush over the slot list, with the early
break once both claim-once flags hold.  Fuel equals the number of
remaining slots; the loop ends when the index leaves the list. -/
def patchLoop (p : SeedParams) (new_name : String) (now : ℚ) :
    Nat → Nat → List PVal → Bool → Bool → Option (List PVal)
  | 0, _, objs, _, _ => some objs
  | fuel + 1, i, objs, stamped, renamed =>
    if i < objs.length then
      match patchStep p new_name now objs i stamped renamed with
      | none => none
      | some (objs', stamped', renamed') =>
        if stamped' && renamed' then some objs'
        else patchLoop p new_name now fuel (i + 1) objs' stamped' renamed'
    else some objs

/-- finalise_seed_brush, reduced to its computational core: compute the
parameter block, then run the patch loop over the object graph.  A none
is an uncaught exception (or a resolve loop that never terminates). -/
def finalise_seed_brush (pw : ℚ → ℚ) (variant : Variant) (new_name : String)
    (now : ℚ) (objs : List PVal) : Option (List PVal) :=
  match computeSeedParams pw variant with
  | none => none
  | some p => patchLoop p new_name now objs.length 0 objs false false

/-!
Bridging lemmas between the executable Python-style operations and the
order vocabulary of the library.
-/

/-- pymin agrees with the lattice minimum. -/
theorem pymin_eq_min (a b : ℚ) : pymin a b = min a b := by
  unfold pymin
  rw [min_def]
  rcases lt_trichotomy a b with h | h | h
  · rw [if_neg (not_lt.mpr h.le), if_pos h.le]
  · subst h; simp
  · rw [if_pos h, if_neg (not_le.mpr h)]

/-- pymax agrees with the lattice maximum. -/
theorem pymax_eq_max (a b : ℚ) : pymax a b = max a b := by
  unfold pymax
  rw [max_def]
  rcases lt_trichotomy a b with h | h | h
  · rw [if_pos h, if_pos h.le]
  · subst h; simp
  · rw [if_neg (not_lt.mpr h.le), if_neg (not_le.mpr h)]

/-- A present numeric field read through get-with-default. -/
theorem pyGetD_num (q d : ℚ) : pyGetD (Fld.num q) d = some q := rfl

/-- A present numeric field passed through the falsy-or with default 0 is
returned unchanged. -/
theorem pyOr_some_zero (q : ℚ) : pyOr (some q) 0 = q := by
  show (if q = 0 then (0 : ℚ) else q) = q
  split
  · next h => exact h.symm
  · rfl

/-!
Concrete inputs used by witnesses and counterexamples.
-/

/-- A variant row with every field present except BrushRevision. -/
def vNoRev : Variant :=
  { BrushSize := Fld.num 100, BrushInterval := Fld.num 10,
    BrushUseWaterColor := Fld.num 0, BrushMixColor := Fld.num 20,
    BrushMixAlpha := Fld.num 20, BrushFlow := Fld.num 80,
    BrushRotationRandomInSpray := Fld.num 0, BrushUseSpray := Fld.num 1,
    BrushRotationInSpray := Fld.num 1, BrushRotation := Fld.num 45,
    BrushPatternOrderType := Fld.num 3, BrushRotationRandomScale := Fld.num 50,
    BrushSprayBias := Fld.num 0, BrushRevision := Fld.absent,
    BrushUseIn := Fld.num 1, BrushUseOut := Fld.num 1,
    BrushInLength := Fld.num 100, BrushOutLength := Fld.num 100,
    BrushInRatio := Fld.num 1, BrushOutRatio := Fld.num 1,
    BrushRotationEffector := Fld.num 3 }

/-- A variant row with only BrushRevision present (jitter needs it). -/
def v1 : Variant := { BrushRevision := Fld.num 50 }

/-- A variant row with every field absent. -/
def vAbsent : Variant := {}

/-- A five-slot template: a creationDate record resolving into slot 1, a
name record pointing at slot 3, and a plotSpacing record at slot 4 that is
only reached after both claim-once fields are satisfied. -/
def G5 : List PVal :=
  [PVal.dict [("creationDate", PVal.uid 1)],
   PVal.dict [("NS.time", PVal.real 0)],
   PVal.dict [("name", PVal.uid 3)],
   PVal.str "x",
   PVal.dict [("plotSpacing", PVal.real 5)]]

/-- A template without claim-once fields and with plotSpacing occurring in
two records. -/
def GW : List PVal :=
  [PVal.dict [("plotSpacing", PVal.real 5)], PVal.str "x",
   PVal.dict [("plotSpacing", PVal.real 7)]]

/-- The patched form of GW for the variant v1. -/
def GWout : List PVal :=
  [PVal.dict [("plotSpacing", PVal.real 0.01)], PVal.str "x",
   PVal.dict [("plotSpacing", PVal.real 0.01)]]

/-- A blob whose last IEND occurrence precedes its last PNG occurrence. -/
def blobMisordered : List Nat := [73, 69, 78, 68, 120, 80, 78, 71]

/-- A well-formed blob: one byte of prefix, then PNG, then IEND. -/
def blobGood : List Nat := [0, 80, 78, 71, 73, 69, 78, 68]

/-- A blob containing neither marker. -/
def blobNoMarkers : List Nat := [1, 2, 3]

/-!
Claim C2.  The spec says a missing source field never raises inside the
parameter mapping, naming BrushRevision among others; the code computes
variant.get("BrushRevision")/100 with no default, which raises TypeError
whenever BrushRevision is absent or NULL, aborting the conversion.
-/

/-- C2: a variant lacking only BrushRevision makes the parameter block of
finalise_seed_brush raise (modelled as none) instead of producing a
parameter set, contradicting the never-raise contract. -/
theorem missing_BrushRevision_aborts :
    computeSeedParams (fun x => x) vNoRev = none ∧
    finalise_seed_brush (fun x => x) vNoRev "name n" 0 [] = none := by
  constructor
  · with_unfolding_all rfl
  · with_unfolding_all rfl

/-!
Claim C3.  The spec says the resolver fails with DanglingReference within
slot-count many indirections and always terminates; the source resolve is
an unguarded while loop.
-/

/-- C3 counterexample: on the one-slot graph whose slot 0 is a UID pointing
at itself, the resolve loop is still running after far more than one
(the slot count) indirection, and no DanglingReference failure exists. -/
theorem resolve_cycle_exceeds_slot_count :
    resolveRef [PVal.uid 0] 1 none (PVal.uid 0) = RRes.spin ∧
    resolveRef [PVal.uid 0] 50 none (PVal.uid 0) = RRes.spin := by
  exact ⟨rfl, rfl⟩

/-- C3 amended: the resolver has no guard at all: on a cyclic reference it
never terminates (spin at every fuel), and an out-of-range reference is an
uncaught IndexError rather than a documented malformed-template failure. -/
theorem resolve_spins_forever_on_cycle :
    (∀ (fuel : Nat) (loc : Option Nat),
       resolveRef [PVal.uid 0] fuel loc (PVal.uid 0) = RRes.spin) ∧
    (∀ (fuel : Nat) (loc : Option Nat),
       resolveRef [PVal.int 7] (fuel + 1) loc (PVal.uid 3) = RRes.indexError) := by
  constructor
  · intro fuel
    induction fuel with
    | zero => intro loc; rfl
    | succ n ih => intro loc; exact ih (some 0)
  · intro fuel loc; rfl

/-!
Claim C4.  The spec says size at most 0 returns 0.01 directly; but the
falsy-or in the size read turns an explicit 0 into the default 1 first, so
only strictly negative sizes reach the early return.
-/

/-- C4 counterexample: brush size exactly 0 with interval 100 yields 1.0,
not the claimed floor 0.01, because 0 is falsy and becomes the default 1
before the sign test. -/
theorem spacing_size_zero_counterexample :
    csp_to_plotSpacing { BrushSize := Fld.num 0, BrushInterval := Fld.num 100 } = 1 ∧
    (1 : ℚ) ≠ 0.01 := by
  constructor
  · with_unfolding_all decide
  · norm_num

/-- C4 amended: a strictly negative size returns exactly 0.01 without
forming the ratio, while size 0 is coerced to the default 1, so the curve
returns the clamped value of interval times 0.15. -/
theorem spacing_nonpositive_size_amended (q i : ℚ) (hq : q < 0) :
    csp_to_plotSpacing { BrushSize := Fld.num q, BrushInterval := Fld.num i } = 0.01 ∧
    csp_to_plotSpacing { BrushSize := Fld.num 0, BrushInterval := Fld.num i }
      = pymax 0.01 (pymin 1.0 (i * 0.15)) := by
  constructor
  · show (if pyOr (pyGetD (Fld.num q) 1) 1 ≤ 0 then (0.01 : ℚ) else _) = 0.01
    have hsz : pyOr (pyGetD (Fld.num q) 1) 1 = q := by
      show (if q = 0 then (1 : ℚ) else q) = q
      rw [if_neg hq.ne]
    rw [hsz, if_pos hq.le]
  · have hsz : pyOr (pyGetD (Fld.num 0) 1) 1 = 1 := by
      show (if (0 : ℚ) = 0 then (1 : ℚ) else 0) = 1
      rw [if_pos rfl]
    have hiv : pyOr (pyGetD (Fld.num i) 0) 0 = i := pyOr_some_zero i
    show (if pyOr (pyGetD (Fld.num 0) 1) 1 ≤ 0 then (0.01 : ℚ) else _) = _
    rw [hsz, hiv]
    rw [div_one, if_pos (show (1 : ℚ) < 50 by norm_num)]
    rfl

/-- C4 amended witness at size -5, interval 100. -/
theorem spacing_nonpositive_size_witness :
    ((-5 : ℚ) < 0) ∧
    (csp_to_plotSpacing { BrushSize := Fld.num (-5), BrushInterval := Fld.num 100 } = 0.01 ∧
     csp_to_plotSpacing { BrushSize := Fld.num 0, BrushInterval := Fld.num 100 }
       = pymax 0.01 (pymin 1.0 (100 * 0.15))) :=
  ⟨by norm_num, spacing_nonpositive_size_amended (-5) 100 (by norm_num)⟩

/-!
Claims C5 and C6: the two-marker extraction.
-/

/-- Shared helper: whenever the PNG guard and the IEND guard both pass,
extraction returns the slice from one before the last PNG occurrence to
four past the last IEND occurrence, with no further checks. -/
theorem extract_ok_of_found (blob : List Nat)
    (h1 : ¬ rfind blob PNG_SIG ≤ 0) (h2 : ¬ rfind blob IEND_MARKER = -1) :
    extract_png_from_layer blob
      = Except.ok (pySlice blob (rfind blob PNG_SIG - 1) (rfind blob IEND_MARKER + 4)) := by
  unfold extract_png_from_layer
  rw [if_neg h1, if_neg h2]

/-- C5 counterexample: a blob whose last IEND occurrence (index 0) lies
before its last PNG occurrence (index 5) does not fail at all: extraction
returns the empty slice as a success, so the row is not skipped. -/
theorem extract_misordered_markers_counterexample :
    extract_png_from_layer blobMisordered = Except.ok [] ∧
    extract_pngs_from_sut 0 [blobMisordered] = [(0, [])] := by
  constructor
  · with_unfolding_all rfl
  · with_unfolding_all rfl

/-- C5 amended: a blob lacking the start marker (or with it at offset 0)
fails with the PNG error, a blob lacking the end marker fails with the
IEND error, and in the row loop an erroring row is skipped while
processing continues; but when both markers are found the slice is
returned as a success even if the last IEND lies before the last PNG. -/
theorem extract_missing_marker_errors (blob : List Nat)
    (bs : List (List Nat)) (idx : Nat) (e : String)
    (hbad : extract_png_from_layer blob = Except.error e) :
    (rfind blob PNG_SIG ≤ 0 →
       extract_png_from_layer blob = Except.error "PNG signature not found in layer blob") ∧
    (¬ rfind blob PNG_SIG ≤ 0 → rfind blob IEND_MARKER = -1 →
       extract_png_from_layer blob = Except.error "IEND marker not found in layer blob") ∧
    (¬ rfind blob PNG_SIG ≤ 0 → ¬ rfind blob IEND_MARKER = -1 →
       extract_png_from_layer blob
         = Except.ok (pySlice blob (rfind blob PNG_SIG - 1) (rfind blob IEND_MARKER + 4))) ∧
    extract_pngs_from_sut idx (blob :: bs) = extract_pngs_from_sut (idx + 1) bs := by
  refine ⟨?_, ?_, ?_, ?_⟩
  · intro h
    unfold extract_png_from_layer
    rw [if_pos h]
  · intro h1 h2
    unfold extract_png_from_layer
    rw [if_neg h1, if_pos h2]
  · intro h1 h2
    exact extract_ok_of_found blob h1 h2
  · show (match extract_png_from_layer blob with
        | Except.ok png => (idx, png) :: extract_pngs_from_sut (idx + 1) bs
        | Except.error _ => extract_pngs_from_sut (idx + 1) bs)
        = extract_pngs_from_sut (idx + 1) bs
    rw [hbad]

/-- C5 amended witness: a blob with no markers errors with the PNG message
and is skipped, while the following well-formed row is still processed. -/
theorem extract_missing_marker_errors_witness :
    (extract_png_from_layer blobNoMarkers
       = Except.error "PNG signature not found in layer blob") ∧
    ((rfind blobNoMarkers PNG_SIG ≤ 0 →
        extract_png_from_layer blobNoMarkers
          = Except.error "PNG signature not found in layer blob") ∧
     (¬ rfind blobNoMarkers PNG_SIG ≤ 0 → rfind blobNoMarkers IEND_MARKER = -1 →
        extract_png_from_layer blobNoMarkers
          = Except.error "IEND marker not found in layer blob") ∧
     (¬ rfind blobNoMarkers PNG_SIG ≤ 0 → ¬ rfind blobNoMarkers IEND_MARKER = -1 →
        extract_png_from_layer blobNoMarkers
          = Except.ok (pySlice blobNoMarkers (rfind blobNoMarkers PNG_SIG - 1)
              (rfind blobNoMarkers IEND_MARKER + 4))) ∧
     extract_pngs_from_sut 0 (blobNoMarkers :: [blobGood])
       = extract_pngs_from_sut 1 [blobGood]) := by
  have hbad : extract_png_from_layer blobNoMarkers
      = Except.error "PNG signature not found in layer blob" := by
    with_unfolding_all rfl
  exact ⟨hbad, extract_missing_marker_errors blobNoMarkers [blobGood] 0 _ hbad⟩

/-- C6: for a well-formed marker pair (last PNG occurrence at offset at
least 1, last IEND occurrence after it) extraction succeeds with exactly
the byte range from one before the PNG marker to four past the IEND
marker.  Determinism is definitional: the embedded extractor, like the
source, is a pure function of the blob alone. -/
theorem extract_wellformed_range (blob : List Nat)
    (h1 : 1 ≤ rfind blob PNG_SIG)
    (h2 : rfind blob PNG_SIG < rfind blob IEND_MARKER) :
    extract_png_from_layer blob
      = Except.ok (pySlice blob (rfind blob PNG_SIG - 1) (rfind blob IEND_MARKER + 4)) :=
  extract_ok_of_found blob (by omega) (by omega)

/-- C6 witness on a concrete well-formed blob. -/
theorem extract_wellformed_range_witness :
    (1 ≤ rfind blobGood PNG_SIG) ∧
    (rfind blobGood PNG_SIG < rfind blobGood IEND_MARKER) ∧
    extract_png_from_layer blobGood
      = Except.ok (pySlice blobGood (rfind blobGood PNG_SIG - 1)
          (rfind blobGood IEND_MARKER + 4)) := by
  have h1 : 1 ≤ rfind blobGood PNG_SIG := by with_unfolding_all decide
  have h2 : rfind blobGood PNG_SIG < rfind blobGood IEND_MARKER := by
    with_unfolding_all decide
  exact ⟨h1, h2, extract_wellformed_range blobGood h1 h2⟩

/-!
Claim C9: the spacing curve is monotone in the interval for a fixed size
and always lies between 0.01 and 1.0.
-/

/-- C9: for every variant the spacing lies in the closed interval from
0.01 to 1.0, and for a fixed size field the spacing is monotonically
non-decreasing in the interval value. -/
theorem spacing_bounds_and_monotone (v : Variant) (sz : Fld) (i1 i2 : ℚ)
    (h : i1 ≤ i2) :
    (0.01 ≤ csp_to_plotSpacing v ∧ csp_to_plotSpacing v ≤ 1) ∧
    csp_to_plotSpacing { BrushSize := sz, BrushInterval := Fld.num i1 } ≤
      csp_to_plotSpacing { BrushSize := sz, BrushInterval := Fld.num i2 } := by
  constructor
  · unfold csp_to_plotSpacing
    dsimp only
    by_cases hc : pyOr (pyGetD v.BrushSize 1) 1 ≤ 0
    · rw [if_pos hc]
      norm_num
    · rw [if_neg hc, pymax_eq_max, pymin_eq_min]
      exact ⟨le_max_left _ _, max_le (by norm_num) ((min_le_left _ _).trans (by norm_num))⟩
  · unfold csp_to_plotSpacing
    dsimp only
    rw [pyGetD_num, pyGetD_num, pyOr_some_zero i1, pyOr_some_zero i2]
    by_cases hpos : pyOr (pyGetD sz 1) 1 ≤ 0
    · rw [if_pos hpos, if_pos hpos]
    · rw [if_neg hpos, if_neg hpos]
      have hs : 0 < pyOr (pyGetD sz 1) 1 := lt_of_not_le hpos
      have hfudge : 0 ≤ (if pyOr (pyGetD sz 1) 1 < 50 then (0.15 : ℚ)
          else if pyOr (pyGetD sz 1) 1 < 100 then 0.3 else 0.6) := by
        split
        · norm_num
        · split <;> norm_num
      rw [pymax_eq_max, pymin_eq_min, pymax_eq_max, pymin_eq_min]
      exact max_le_max le_rfl (min_le_min le_rfl
        (mul_le_mul_of_nonneg_right ((div_le_div_iff_of_pos_right hs).mpr h) hfudge))

/-- C9 witness, echoing the spec scenario size 40 and intervals 4 and 8. -/
theorem spacing_bounds_and_monotone_witness :
    ((4 : ℚ) ≤ 8) ∧
    ((0.01 ≤ csp_to_plotSpacing { BrushSize := Fld.num 40, BrushInterval := Fld.num 4 } ∧
      csp_to_plotSpacing { BrushSize := Fld.num 40, BrushInterval := Fld.num 4 } ≤ 1) ∧
     csp_to_plotSpacing { BrushSize := Fld.num 40, BrushInterval := Fld.num 4 } ≤
       csp_to_plotSpacing { BrushSize := Fld.num 40, BrushInterval := Fld.num 8 }) :=
  ⟨by norm_num,
   spacing_bounds_and_monotone { BrushSize := Fld.num 40, BrushInterval := Fld.num 4 }
     (Fld.num 40) 4 8 (by norm_num)⟩

/-!
Claim C7: the wet-mix mapping.
-/

/-- The normalized mix-color is non-negative. -/
theorem wetNC_nonneg (v : Variant) : 0 ≤ wetNC v := by
  unfold wetNC
  rw [pymax_eq_max]
  exact le_max_left _ _

/-- The normalized mix-alpha is non-negative. -/
theorem wetNA_nonneg (v : Variant) : 0 ≤ wetNA v := by
  unfold wetNA
  rw [pymax_eq_max]
  exact le_max_left _ _

/-- The normalized flow is at most 1. -/
theorem wetNF_le_one (v : Variant) : wetNF v ≤ 1 := by
  unfold wetNF
  rw [pymax_eq_max, pymin_eq_min]
  exact max_le (by norm_num) (min_le_left _ _)

/-- C7: dilution is 0 exactly when water-color is off and normalized
mix-color is below one half, otherwise it is the capped formula; dilution
stays within 0 and 0.7; charge is the complement clamped to at least 0.2
and stays within 0.2 and 1; attack and pull are the stated formulas.  The
hypothesis on pw records that the float power x ** 0.75 is non-negative on
the normalized input. -/
theorem wet_mix_spec (pw : ℚ → ℚ) (v : Variant) (hpw : 0 ≤ pw (wetNC v)) :
    (useWaterColor v = false ∧ wetNC v < 0.5 →
       (map_csp_to_wet_mix pw v).wetMixDilution = 0) ∧
    (¬ (useWaterColor v = false ∧ wetNC v < 0.5) →
       (map_csp_to_wet_mix pw v).wetMixDilution
         = pymin 0.7 (pw (wetNC v) * 0.7 * (0.5 + 0.5 * (1 - wetNF v))
             + 0.2 * wetNA v * 0.7)) ∧
    0 ≤ (map_csp_to_wet_mix pw v).wetMixDilution ∧
    (map_csp_to_wet_mix pw v).wetMixDilution ≤ 0.7 ∧
    (map_csp_to_wet_mix pw v).wetMixCharge
      = pymax 0.2 (1 - (map_csp_to_wet_mix pw v).wetMixDilution) ∧
    0.2 ≤ (map_csp_to_wet_mix pw v).wetMixCharge ∧
    (map_csp_to_wet_mix pw v).wetMixCharge ≤ 1 ∧
    (map_csp_to_wet_mix pw v).wetMixAttack = 1 - 0.5 * wetNA v ∧
    (map_csp_to_wet_mix pw v).wetMixPull = (if useWaterColor v then 0.6 else 0) := by
  have hdil : (map_csp_to_wet_mix pw v).wetMixDilution
      = (if useWaterColor v = false ∧ wetNC v < 0.5 then 0
         else pymin 0.7 (pw (wetNC v) * 0.7 * (0.5 + 0.5 * (1 - wetNF v))
             + 0.2 * wetNA v * 0.7)) := rfl
  have hch : (map_csp_to_wet_mix pw v).wetMixCharge
      = pymax 0.2 (1 - (map_csp_to_wet_mix pw v).wetMixDilution) := rfl
  have hbounds : 0 ≤ (map_csp_to_wet_mix pw v).wetMixDilution ∧
      (map_csp_to_wet_mix pw v).wetMixDilution ≤ 0.7 := by
    rw [hdil]
    split
    · norm_num
    · rw [pymin_eq_min]
      constructor
      · refine le_min (by norm_num) ?_
        have hnf := wetNF_le_one v
        have hfb : (0 : ℚ) ≤ 0.5 + 0.5 * (1 - wetNF v) := by linarith
        have h1 : 0 ≤ pw (wetNC v) * 0.7 * (0.5 + 0.5 * (1 - wetNF v)) :=
          mul_nonneg (mul_nonneg hpw (by norm_num)) hfb
        have h3 : 0 ≤ 0.2 * wetNA v * 0.7 :=
          mul_nonneg (mul_nonneg (by norm_num) (wetNA_nonneg v)) (by norm_num)
        linarith
      · exact min_le_left _ _
  refine ⟨?_, ?_, hbounds.1, hbounds.2, hch, ?_, ?_, rfl, rfl⟩
  · intro hcond
    rw [hdil, if_pos hcond]
  · intro hcond
    rw [hdil, if_neg hcond]
  · rw [hch, pymax_eq_max]
    exact le_max_left _ _
  · rw [hch, pymax_eq_max]
    exact max_le (by norm_num) (by linarith [hbounds.1])

/-- C7 witness at the all-absent variant with the identity standing in for
the power function. -/
theorem wet_mix_spec_witness :
    (0 ≤ (fun x : ℚ => x) (wetNC vAbsent)) ∧
    ((useWaterColor vAbsent = false ∧ wetNC vAbsent < 0.5 →
        (map_csp_to_wet_mix (fun x : ℚ => x) vAbsent).wetMixDilution = 0) ∧
     (¬ (useWaterColor vAbsent = false ∧ wetNC vAbsent < 0.5) →
        (map_csp_to_wet_mix (fun x : ℚ => x) vAbsent).wetMixDilution
          = pymin 0.7 ((fun x : ℚ => x) (wetNC vAbsent) * 0.7
              * (0.5 + 0.5 * (1 - wetNF vAbsent)) + 0.2 * wetNA vAbsent * 0.7)) ∧
     0 ≤ (map_csp_to_wet_mix (fun x : ℚ => x) vAbsent).wetMixDilution ∧
     (map_csp_to_wet_mix (fun x : ℚ => x) vAbsent).wetMixDilution ≤ 0.7 ∧
     (map_csp_to_wet_mix (fun x : ℚ => x) vAbsent).wetMixCharge
       = pymax 0.2 (1 - (map_csp_to_wet_mix (fun x : ℚ => x) vAbsent).wetMixDilution) ∧
     0.2 ≤ (map_csp_to_wet_mix (fun x : ℚ => x) vAbsent).wetMixCharge ∧
     (map_csp_to_wet_mix (fun x : ℚ => x) vAbsent).wetMixCharge ≤ 1 ∧
     (map_csp_to_wet_mix (fun x : ℚ => x) vAbsent).wetMixAttack
       = 1 - 0.5 * wetNA vAbsent ∧
     (map_csp_to_wet_mix (fun x : ℚ => x) vAbsent).wetMixPull
       = (if useWaterColor vAbsent then 0.6 else 0)) := by
  have h : 0 ≤ (fun x : ℚ => x) (wetNC vAbsent) := by with_unfolding_all decide
  exact ⟨h, wet_mix_spec (fun x : ℚ => x) vAbsent h⟩

/-!
Claim C8: the rendering-mode classification.
-/

/-- Inputs for the C8 witness: same four reads, different other fields. -/
def v8 : Variant := { BrushUseWaterColor := Fld.num 1, BrushFlow := Fld.num 0.9 }

/-- Same reads as v8 but a different brush size. -/
def v8x : Variant :=
  { BrushUseWaterColor := Fld.num 1, BrushFlow := Fld.num 0.9, BrushSize := Fld.num 77 }

/-- C8: the classification is a function of the four reads alone (identical
reads give identical flag triples), the gate-closed default is max transfer
on with modulated and recursive off, and with the gate open the intense,
heavy and uniform cases set the documented flag pairs with recursive
mixing on in all three. -/
theorem rendering_mode_classification (v v' : Variant)
    (h1 : useWaterColor v = useWaterColor v')
    (h2 : rawMixColor v = rawMixColor v')
    (h3 : rawMixAlpha v = rawMixAlpha v')
    (h4 : renderFlow v = renderFlow v') :
    (¬ (useWaterColor v = true ∨ rawMixColor v > 0.05 ∨ rawMixAlpha v > 0.05) →
       map_csp_rendering_flags v = ⟨true, false, false⟩) ∧
    ((useWaterColor v = true ∨ rawMixColor v > 0.05 ∨ rawMixAlpha v > 0.05) →
       (rawMixColor v ≥ 0.75 ∨ rawMixAlpha v ≥ 0.75) →
       map_csp_rendering_flags v = ⟨true, true, true⟩) ∧
    ((useWaterColor v = true ∨ rawMixColor v > 0.05 ∨ rawMixAlpha v > 0.05) →
       ¬ (rawMixColor v ≥ 0.75 ∨ rawMixAlpha v ≥ 0.75) →
       renderFlow v > 0.8 →
       map_csp_rendering_flags v = ⟨true, false, true⟩) ∧
    ((useWaterColor v = true ∨ rawMixColor v > 0.05 ∨ rawMixAlpha v > 0.05) →
       ¬ (rawMixColor v ≥ 0.75 ∨ rawMixAlpha v ≥ 0.75) →
       ¬ (renderFlow v > 0.8) →
       map_csp_rendering_flags v = ⟨false, true, true⟩) ∧
    map_csp_rendering_flags v = map_csp_rendering_flags v' := by
  have htree : ∀ u : Variant, map_csp_rendering_flags u =
      (if useWaterColor u = true ∨ rawMixColor u > 0.05 ∨ rawMixAlpha u > 0.05 then
         if rawMixColor u ≥ 0.75 ∨ rawMixAlpha u ≥ 0.75 then ⟨true, true, true⟩
         else if renderFlow u > 0.8 then ⟨true, false, true⟩
         else ⟨false, true, true⟩
       else ⟨true, false, false⟩) := fun u => rfl
  refine ⟨?_, ?_, ?_, ?_, ?_⟩
  · intro hg
    rw [htree v, if_neg hg]
  · intro hg hint
    rw [htree v, if_pos hg, if_pos hint]
  · intro hg hint hf
    rw [htree v, if_pos hg, if_neg hint, if_pos hf]
  · intro hg hint hf
    rw [htree v, if_pos hg, if_neg hint, if_neg hf]
  · rw [htree v, htree v', h1, h2, h3, h4]

/-- C8 witness: two variants agreeing on the four reads but differing in
brush size classify identically, here into the uniform-blending mode. -/
theorem rendering_mode_classification_witness :
    (useWaterColor v8 = useWaterColor v8x) ∧
    (rawMixColor v8 = rawMixColor v8x) ∧
    (rawMixAlpha v8 = rawMixAlpha v8x) ∧
    (renderFlow v8 = renderFlow v8x) ∧
    ((¬ (useWaterColor v8 = true ∨ rawMixColor v8 > 0.05 ∨ rawMixAlpha v8 > 0.05) →
        map_csp_rendering_flags v8 = ⟨true, false, false⟩) ∧
     ((useWaterColor v8 = true ∨ rawMixColor v8 > 0.05 ∨ rawMixAlpha v8 > 0.05) →
        (rawMixColor v8 ≥ 0.75 ∨ rawMixAlpha v8 ≥ 0.75) →
        map_csp_rendering_flags v8 = ⟨true, true, true⟩) ∧
     ((useWaterColor v8 = true ∨ rawMixColor v8 > 0.05 ∨ rawMixAlpha v8 > 0.05) →
        ¬ (rawMixColor v8 ≥ 0.75 ∨ rawMixAlpha v8 ≥ 0.75) →
        renderFlow v8 > 0.8 →
        map_csp_rendering_flags v8 = ⟨true, false, true⟩) ∧
     ((useWaterColor v8 = true ∨ rawMixColor v8 > 0.05 ∨ rawMixAlpha v8 > 0.05) →
        ¬ (rawMixColor v8 ≥ 0.75 ∨ rawMixAlpha v8 ≥ 0.75) →
        ¬ (renderFlow v8 > 0.8) →
        map_csp_rendering_flags v8 = ⟨false, true, true⟩) ∧
     map_csp_rendering_flags v8 = map_csp_rendering_flags v8x) := by
  have e1 : useWaterColor v8 = useWaterColor v8x := rfl
  have e2 : rawMixColor v8 = rawMixColor v8x := rfl
  have e3 : rawMixAlpha v8 = rawMixAlpha v8x := rfl
  have e4 : renderFlow v8 = renderFlow v8x := rfl
  exact ⟨e1, e2, e3, e4, rendering_mode_classification v8 v8x e1 e2 e3 e4⟩

/-!
Claim C10: the two inconsistent defaults for a missing BrushFlow.
-/

/-- C10: with BrushFlow absent (or NULL), the rendering classifier reads
flow 1.0 (the value compared against its 0.8 threshold) while the wet-mix
mapper reads 100, whose normalization is 1.0 after dividing by 100 - two
different full-strength sentinels on incompatible scales. -/
theorem flow_default_sentinels (v : Variant)
    (h : v.BrushFlow = Fld.absent ∨ v.BrushFlow = Fld.null) :
    renderFlow v = 1 ∧ wetFlow v = 100 ∧ wetNF v = 1 := by
  have hr : renderFlow v = 1 := by
    unfold renderFlow
    rcases h with h | h <;> rw [h] <;> with_unfolding_all rfl
  have hw : wetFlow v = 100 := by
    unfold wetFlow
    rcases h with h | h <;> rw [h] <;> with_unfolding_all rfl
  refine ⟨hr, hw, ?_⟩
  unfold wetNF
  rw [hw]
  norm_num [pymin, pymax]

/-- C10 witness at the all-absent variant. -/
theorem flow_default_sentinels_witness :
    (vAbsent.BrushFlow = Fld.absent ∨ vAbsent.BrushFlow = Fld.null) ∧
    (renderFlow vAbsent = 1 ∧ wetFlow vAbsent = 100 ∧ wetNF vAbsent = 1) :=
  ⟨Or.inl rfl, flow_default_sentinels vAbsent (Or.inl rfl)⟩

/-!
Claim C1: record-dictionary lemmas for the patch loop.
-/

/-- Setting a key makes it readable. -/
theorem dGet_dSet_self (d : Dict) (k : String) (w : PVal) :
    dGet (dSet d k w) k = some w := by
  induction d with
  | nil => simp [dSet, dGet]
  | cons a t ih =>
    obtain ⟨k0, v0⟩ := a
    by_cases hk : k0 = k
    · subst hk
      simp [dSet, dGet]
    · simp [dSet, dGet, hk, ih]

/-- Setting one key leaves every other key unchanged. -/
theorem dGet_dSet_ne (d : Dict) (k k' : String) (w : PVal) (h : ¬ k' = k) :
    dGet (dSet d k w) k' = dGet d k' := by
  induction d with
  | nil =>
    have h2 : ¬ k = k' := fun e => h e.symm
    simp [dSet, dGet, h2]
  | cons a t ih =>
    obtain ⟨k0, v0⟩ := a
    by_cases hk : k0 = k
    · subst hk
      have h2 : ¬ k0 = k' := fun e => h e.symm
      simp [dSet, dGet, h2]
    · by_cases hk' : k0 = k'
      · subst hk'
        simp [dSet, dGet, hk]
      · simp [dSet, dGet, hk, hk', ih]

/-- A set key is present. -/
theorem hasKey_dSet_self (d : Dict) (k : String) (w : PVal) :
    hasKey (dSet d k w) k = true := by
  simp [hasKey, dGet_dSet_self]

/-- Setting one key does not change the presence of another. -/
theorem hasKey_dSet_ne (d : Dict) (k k' : String) (w : PVal) (h : ¬ k' = k) :
    hasKey (dSet d k w) k' = hasKey d k' := by
  simp [hasKey, dGet_dSet_ne d k k' w h]

/-- An absent key reads as none. -/
theorem dGet_eq_none_of_hasKey_false (d : Dict) (k : String)
    (h : hasKey d k = false) : dGet d k = none := by
  unfold hasKey at h
  cases hd : dGet d k with
  | none => rfl
  | some w => rw [hd] at h; simp at h

/-- The guarded write su changes only the written key. -/
theorem dGet_su_ne (d : Dict) (k k' : String) (w : PVal) (h : ¬ k' = k) :
    dGet (su d k w) k' = dGet d k' := by
  unfold su
  split
  · exact dGet_dSet_ne d k k' w h
  · rfl

/-- Reading the key su wrote: the written value if the key was present,
none otherwise (su writes only to present keys). -/
theorem dGet_su_self (d : Dict) (k : String) (w : PVal) :
    dGet (su d k w) k = (if hasKey d k then some w else none) := by
  unfold su
  split
  · exact dGet_dSet_self d k w
  · next h =>
    exact dGet_eq_none_of_hasKey_false d k (by revert h; cases hasKey d k <;> simp)

/-- su never changes which keys are present. -/
theorem hasKey_su (d : Dict) (k k' : String) (w : PVal) :
    hasKey (su d k w) k' = hasKey d k' := by
  unfold su
  split
  · next h =>
    by_cases hk : k' = k
    · subst hk
      rw [hasKey_dSet_self, h]
    · exact hasKey_dSet_ne d k k' w hk
  · rfl

/-- Unpacking a successful guarded write whose value can raise. -/
theorem suF_some (d : Dict) (k : String) (o : Option PVal) (d' : Dict)
    (h : suF d k o = some d') :
    (∀ k', ¬ k' = k → dGet d' k' = dGet d k') ∧
    (∀ k', hasKey d' k' = hasKey d k') := by
  unfold suF at h
  split at h
  · next hk =>
    cases o with
    | none => cases h
    | some w =>
      injection h with h
      subst h
      refine ⟨fun k' hne => dGet_dSet_ne d k k' w hne, fun k' => ?_⟩
      by_cases hk' : k' = k
      · subst hk'
        rw [hasKey_dSet_self, hk]
      · exact hasKey_dSet_ne d k k' w hk'
  · injection h with h
    subst h
    exact ⟨fun _ _ => rfl, fun _ => rfl⟩

/-- The taper writes are guarded by the in/out gate. -/
theorem ite_suF_some (c : Prop) [Decidable c] (d : Dict) (k : String)
    (o : Option PVal) (d' : Dict)
    (h : (if c then suF d k o else pure d) = some d') :
    (∀ k', ¬ k' = k → dGet d' k' = dGet d k') ∧
    (∀ k', hasKey d' k' = hasKey d k') := by
  split at h
  · exact suF_some d k o d' h
  · injection h with h
    subst h
    exact ⟨fun _ _ => rfl, fun _ => rfl⟩

/-- Reading a key through a branch on a record. -/
theorem dGet_ite (c : Prop) [Decidable c] (a b : Dict) (k : String) :
    dGet (if c then a else b) k = if c then dGet a k else dGet b k := by
  split <;> rfl

theorem hasKey_ite (c : Prop) [Decidable c] (a b : Dict) (k : String) :
    hasKey (if c then a else b) k = if c then hasKey a k else hasKey b k := by
  split <;> rfl

theorem fieldUpdates_spec (p : SeedParams) (d d' : Dict)
    (h : fieldUpdates p d = some d') :
    dGet d' "plotSpacing"
      = (if hasKey d "plotSpacing" then some (PVal.real p.spacing) else none) ∧
    hasKey d' "creationDate" = hasKey d "creationDate" := by
  unfold fieldUpdates at h
  by_cases hUIO : (p.BrushUseIn || p.BrushUseOut) = true
  · simp only [if_pos hUIO, bind, Option.pure_def, Option.bind_eq_some, Option.some.injEq] at h
    obtain ⟨d5, h5, d11, h11, d12, h12, rfl⟩ := h
    have H5 := suF_some _ _ _ _ h5
    have H11 := suF_some _ _ _ _ h11
    have H12 := suF_some _ _ _ _ h12
    constructor
    · simp [dGet_su_ne, dGet_ite, dGet_dSet_ne, H12.1, H11.1, H5.1, dGet_su_self, ite_self]
    · simp [hasKey_su, hasKey_ite, hasKey_dSet_ne, H12.2, H11.2, H5.2, ite_self]
  · simp only [if_neg hUIO, bind, Option.pure_def, Option.bind_eq_some, Option.some.injEq] at h
    obtain ⟨d5, h5, d10, rfl, d11, rfl, rfl⟩ := h
    have H5 := suF_some _ _ _ _ h5
    constructor
    · simp [dGet_su_ne, dGet_ite, dGet_dSet_ne, H5.1, dGet_su_self, ite_self]
    · simp [hasKey_su, hasKey_ite, hasKey_dSet_ne, H5.2, ite_self]

/-- No record slot of the graph carries a creationDate key (computable, so
a witness can check it by evaluation). -/
def cdFree (objs : List PVal) : Bool :=
  objs.all fun s => match s with
    | PVal.dict e => !(hasKey e "creationDate")
    | _ => true

/-- Slot j, if it is a record containing plotSpacing, carries the mapped
spacing value. -/
def GoodAt (spacing : ℚ) (objs : List PVal) (j : Nat) : Prop :=
  ∀ e : Dict, objs[j]? = some (PVal.dict e) → hasKey e "plotSpacing" = true →
    dGet e "plotSpacing" = some (PVal.real spacing)

theorem cdFree_lookup (objs : List PVal) (h : cdFree objs = true) (j : Nat)
    (e : Dict) (hj : objs[j]? = some (PVal.dict e)) :
    hasKey e "creationDate" = false := by
  have hm : PVal.dict e ∈ objs := List.getElem?_mem hj
  have hx := (List.all_eq_true.mp h) _ hm
  simpa using hx

theorem cdFree_set_str (objs : List PVal) (j : Nat) (s : String)
    (h : cdFree objs = true) : cdFree (objs.set j (PVal.str s)) = true := by
  rw [cdFree, List.all_eq_true]
  intro x hx
  rcases List.mem_or_eq_of_mem_set hx with hx | rfl
  · exact (List.all_eq_true.mp h) _ hx
  · rfl

theorem cdFree_set_dict (objs : List PVal) (j : Nat) (e : Dict)
    (h : cdFree objs = true) (he : hasKey e "creationDate" = false) :
    cdFree (objs.set j (PVal.dict e)) = true := by
  rw [cdFree, List.all_eq_true]
  intro x hx
  rcases List.mem_or_eq_of_mem_set hx with hx | rfl
  · exact (List.all_eq_true.mp h) _ hx
  · simpa using he

theorem goodAt_set_ne (spacing : ℚ) (objs : List PVal) (i j : Nat) (v : PVal)
    (hne : i ≠ j) (hg : GoodAt spacing objs j) :
    GoodAt spacing (objs.set i v) j := by
  intro e he hk
  rw [List.getElem?_set_ne hne] at he
  exact hg e he hk

theorem goodAt_set_str (spacing : ℚ) (objs : List PVal) (j : Nat) (s : String) :
    GoodAt spacing (objs.set j (PVal.str s)) j := by
  intro e he hk
  rw [List.getElem?_set_self'] at he
  cases hX : objs[j]? with
  | none => rw [hX] at he; cases he
  | some x => rw [hX] at he; injection he with he; exact PVal.noConfusion he

theorem goodAt_set_dict (spacing : ℚ) (objs : List PVal) (j : Nat) (e' : Dict)
    (hval : hasKey e' "plotSpacing" = true →
      dGet e' "plotSpacing" = some (PVal.real spacing)) :
    GoodAt spacing (objs.set j (PVal.dict e')) j := by
  intro e he hk
  rw [List.getElem?_set_self'] at he
  cases hX : objs[j]? with
  | none => rw [hX] at he; cases he
  | some x =>
    rw [hX] at he
    injection he with he
    injection he with he
    subst he
    exact hval hk

theorem stepA_skip (objs : List PVal) (i : Nat) (d0 : Dict) (now : ℚ)
    (hd : hasKey d0 "creationDate" = false) :
    stepA objs i d0 false now = some (objs, d0, false) := by
  have hnone : dGet d0 "creationDate" = none :=
    dGet_eq_none_of_hasKey_false _ _ hd
  simp [stepA, hnone]

theorem stepB_cases (objs : List PVal) (i : Nat) (d : Dict) (rn : Bool)
    (nm : String) (objs2 : List PVal) (rn1 det : Bool)
    (h : stepB objs i d rn nm = some (objs2, rn1, det)) :
    (objs2 = objs ∧ det = false) ∨
    (∃ j, objs2 = objs.set j (PVal.str nm) ∧ det = (j == i)) := by
  unfold stepB at h
  split at h
  · simp only [Option.some.injEq, Prod.mk.injEq] at h
    obtain ⟨rfl, -, rfl⟩ := h
    exact Or.inl ⟨rfl, rfl⟩
  · split at h
    · simp only [Option.some.injEq, Prod.mk.injEq] at h
      obtain ⟨rfl, -, rfl⟩ := h
      exact Or.inl ⟨rfl, rfl⟩
    · split at h
      · cases h
      · split at h
        · cases h
        · next j hj =>
          simp only [Option.some.injEq, Prod.mk.injEq] at h
          obtain ⟨rfl, -, rfl⟩ := h
          exact Or.inr ⟨j, rfl, rfl⟩

theorem hasKey_of_dGet_spec (d2 d0 : Dict) (p : SeedParams)
    (hspec : dGet d2 "plotSpacing"
      = (if hasKey d0 "plotSpacing" then some (PVal.real p.spacing) else none))
    (hk : hasKey d2 "plotSpacing" = true) :
    dGet d2 "plotSpacing" = some (PVal.real p.spacing) := by
  by_cases hc : hasKey d0 "plotSpacing" = true
  · rw [hspec, if_pos hc]
  · exfalso
    unfold hasKey at hk
    rw [hspec, if_neg hc] at hk
    simp at hk

theorem patchStep_inv (p : SeedParams) (nm : String) (now : ℚ)
    (objs : List PVal) (i : Nat) (rn : Bool)
    (objs' : List PVal) (st' rn' : Bool)
    (hfree : cdFree objs = true)
    (h : patchStep p nm now objs i false rn = some (objs', st', rn')) :
    st' = false ∧ cdFree objs' = true ∧ objs'.length = objs.length ∧
    (∀ j, j ≠ i → GoodAt p.spacing objs j → GoodAt p.spacing objs' j) ∧
    GoodAt p.spacing objs' i := by
  unfold patchStep at h
  cases hslot : objs[i]? with
  | none =>
    rw [hslot] at h
    simp only [Option.some.injEq, Prod.mk.injEq] at h
    obtain ⟨rfl, rfl, rfl⟩ := h
    refine ⟨rfl, hfree, rfl, fun j _ hg => hg, ?_⟩
    intro e he hk
    rw [hslot] at he
    cases he
  | some v =>
    rw [hslot] at h
    have htriv : ∀ w : PVal, objs[i]? = some w → (∀ e : Dict, w ≠ PVal.dict e) →
        GoodAt p.spacing objs i := by
      intro w hw hne e he hk
      rw [hw] at he
      injection he with he
      exact absurd he (hne e)
    cases v with
    | uid n =>
      simp only [Option.some.injEq, Prod.mk.injEq] at h
      obtain ⟨rfl, rfl, rfl⟩ := h
      exact ⟨rfl, hfree, rfl, fun j _ hg => hg,
        htriv _ hslot (fun e he => PVal.noConfusion he)⟩
    | int n =>
      simp only [Option.some.injEq, Prod.mk.injEq] at h
      obtain ⟨rfl, rfl, rfl⟩ := h
      exact ⟨rfl, hfree, rfl, fun j _ hg => hg,
        htriv _ hslot (fun e he => PVal.noConfusion he)⟩
    | real q =>
      simp only [Option.some.injEq, Prod.mk.injEq] at h
      obtain ⟨rfl, rfl, rfl⟩ := h
      exact ⟨rfl, hfree, rfl, fun j _ hg => hg,
        htriv _ hslot (fun e he => PVal.noConfusion he)⟩
    | str s =>
      simp only [Option.some.injEq, Prod.mk.injEq] at h
      obtain ⟨rfl, rfl, rfl⟩ := h
      exact ⟨rfl, hfree, rfl, fun j _ hg => hg,
        htriv _ hslot (fun e he => PVal.noConfusion he)⟩
    | bool b =>
      simp only [Option.some.injEq, Prod.mk.injEq] at h
      obtain ⟨rfl, rfl, rfl⟩ := h
      exact ⟨rfl, hfree, rfl, fun j _ hg => hg,
        htriv _ hslot (fun e he => PVal.noConfusion he)⟩
    | dict d0 =>
      have hd0 : hasKey d0 "creationDate" = false := cdFree_lookup objs hfree i d0 hslot
      dsimp only at h
      rw [stepA_skip objs i d0 now hd0] at h
      dsimp only at h
      cases hB : stepB objs i d0 rn nm with
      | none => rw [hB] at h; cases h
      | some trip =>
        obtain ⟨objs2, rn1, det⟩ := trip
        rw [hB] at h
        dsimp only at h
        cases hF : fieldUpdates p d0 with
        | none => rw [hF] at h; cases h
        | some d2 =>
          rw [hF] at h
          simp only [Option.some.injEq, Prod.mk.injEq] at h
          obtain ⟨h1, h2, h3⟩ := h
          subst h2
          subst h3
          have HF := fieldUpdates_spec p d0 d2 hF
          have hd2cd : hasKey d2 "creationDate" = false := by rw [HF.2, hd0]
          have hval : hasKey d2 "plotSpacing" = true →
              dGet d2 "plotSpacing" = some (PVal.real p.spacing) :=
            hasKey_of_dGet_spec d2 d0 p HF.1
          rcases stepB_cases objs i d0 rn nm objs2 rn1 det hB with
            ⟨rfl, rfl⟩ | ⟨jx, rfl, hdet⟩
          · simp only [Bool.false_eq_true, if_false] at h1
            subst h1
            refine ⟨rfl, cdFree_set_dict _ i d2 hfree hd2cd, by simp, ?_, ?_⟩
            · intro j hj hg
              exact goodAt_set_ne _ _ _ _ _ (fun e => hj e.symm) hg
            · exact goodAt_set_dict _ _ _ _ hval
          · by_cases hji : jx = i
            · subst hji
              rw [hdet] at h1
              simp only [beq_self_eq_true, if_true] at h1
              subst h1
              refine ⟨rfl, cdFree_set_str _ jx nm hfree, by simp, ?_, ?_⟩
              · intro j hj hg
                exact goodAt_set_ne _ _ _ _ _ (fun e => hj e.symm) hg
              · exact goodAt_set_str _ _ _ _
            · rw [hdet] at h1
              have hbeq : (jx == i) = false := by simp [hji]
              rw [hbeq] at h1
              simp only [Bool.false_eq_true, if_false] at h1
              subst h1
              refine ⟨rfl, cdFree_set_dict _ i d2 (cdFree_set_str _ jx nm hfree) hd2cd,
                by simp, ?_, ?_⟩
              · intro j hj hg
                apply goodAt_set_ne _ _ _ _ _ (fun e => hj e.symm)
                by_cases hjx : j = jx
                · subst hjx
                  exact goodAt_set_str _ _ _ _
                · exact goodAt_set_ne _ _ _ _ _ (fun e => hjx e.symm) hg
              · exact goodAt_set_dict _ _ _ _ hval

/-- Loop invariant: starting unstamped on a creationDate-free graph, the
break can never fire, so every slot processed so far (and finally every
slot) carries the mapped spacing wherever plotSpacing occurs. -/
theorem patchLoop_no_cd (p : SeedParams) (nm : String) (now : ℚ) :
    ∀ (fuel i : Nat) (objs : List PVal) (rn : Bool) (objs' : List PVal),
      cdFree objs = true →
      objs.length ≤ fuel + i →
      patchLoop p nm now fuel i objs false rn = some objs' →
      (∀ j, j < i → GoodAt p.spacing objs j) →
      ∀ j, GoodAt p.spacing objs' j := by
  intro fuel
  induction fuel with
  | zero =>
    intro i objs rn objs' hfree hlen h hpre j
    injection h with h
    subst h
    by_cases hj : j < objs.length
    · exact hpre j (by omega)
    · intro e he hk
      rw [List.getElem?_eq_none (by omega)] at he
      cases he
  | succ n ih =>
    intro i objs rn objs' hfree hlen h hpre j
    unfold patchLoop at h
    split at h
    · cases hstep : patchStep p nm now objs i false rn with
      | none => rw [hstep] at h; cases h
      | some trip =>
        obtain ⟨objs1, st1, rn1⟩ := trip
        rw [hstep] at h
        dsimp only at h
        obtain ⟨hst1, hfree1, hlen1, hpres, hgood⟩ :=
          patchStep_inv p nm now objs i rn objs1 st1 rn1 hfree hstep
        subst hst1
        simp only [Bool.false_and, Bool.false_eq_true, if_false] at h
        refine ih (i + 1) objs1 rn1 objs' hfree1 (by omega) h ?_ j
        intro j2 hj2
        by_cases hji : j2 = i
        · subst hji
          exact hgood
        · exact hpres j2 hji (hpre j2 (by omega))
    · next hge =>
      injection h with h
      subst h
      by_cases hj : j < objs.length
      · exact hpre j (by omega)
      · intro e he hk
        rw [List.getElem?_eq_none (by omega)] at he
        cases he

/-- The spacing stored in the parameter block is the mapped spacing. -/
theorem computeSeedParams_spacing (pw : ℚ → ℚ) (v : Variant) (p : SeedParams)
    (h : computeSeedParams pw v = some p) : p.spacing = csp_to_plotSpacing v := by
  unfold computeSeedParams at h
  simp only [bind, Option.bind_eq_some, Option.pure_def, Option.some.injEq] at h
  obtain ⟨a, ha, b, hb, c, hc, hp⟩ := h
  rw [← hp]

/-- C1 amended: per-occurrence fields are rewritten on every occurrence
the scan visits, but the scan stops as soon as both claim-once fields are
satisfied; whenever the early break cannot fire (here: no record carries a
creationDate, so the timestamp is never claimed), every record slot of the
result that contains plotSpacing holds the mapped spacing value. -/
theorem patch_plotSpacing_all_occurrences_when_no_break
    (pw : ℚ → ℚ) (v : Variant) (nm : String) (now : ℚ)
    (objs objs' : List PVal) (j : Nat) (e : Dict)
    (hfree : cdFree objs = true)
    (hrun : finalise_seed_brush pw v nm now objs = some objs')
    (hj : objs'[j]? = some (PVal.dict e))
    (hk : hasKey e "plotSpacing" = true) :
    dGet e "plotSpacing" = some (PVal.real (csp_to_plotSpacing v)) := by
  unfold finalise_seed_brush at hrun
  cases hp : computeSeedParams pw v with
  | none => rw [hp] at hrun; cases hrun
  | some p =>
    rw [hp] at hrun
    dsimp only at hrun
    have hall := patchLoop_no_cd p nm now objs.length 0 objs false objs' hfree
      (by omega) hrun (fun j2 hj2 => absurd hj2 (by omega))
    have hres := hall j e hj hk
    rw [computeSeedParams_spacing pw v p hp] at hres
    exact hres

/-- C1 counterexample: on the five-slot template G5 the timestamp is
claimed at slot 0 and the name at slot 2, so the loop breaks before slot 4
and the plotSpacing record there keeps its template value 5 instead of the
mapped spacing 0.01 - the claimed full rewrite of every per-occurrence
field does not happen. -/
theorem patch_early_break_counterexample :
    (finalise_seed_brush (fun x => x) v1 "nm" 123 G5).bind (fun l => l[4]?)
      = some (PVal.dict [("plotSpacing", PVal.real 5)]) ∧
    csp_to_plotSpacing v1 = 0.01 ∧ (5 : ℚ) ≠ 0.01 := by
  refine ⟨?_, ?_, by norm_num⟩
  · with_unfolding_all rfl
  · with_unfolding_all decide

/-- C1 amended witness: on the creationDate-free template GW the whole
graph is scanned and both plotSpacing records are rewritten to the mapped
spacing. -/
theorem patch_plotSpacing_witness :
    (cdFree GW = true) ∧
    (finalise_seed_brush (fun x => x) v1 "nm" 123 GW = some GWout) ∧
    (GWout[2]? = some (PVal.dict [("plotSpacing", PVal.real 0.01)])) ∧
    (hasKey [("plotSpacing", PVal.real 0.01)] "plotSpacing" = true) ∧
    dGet [("plotSpacing", PVal.real 0.01)] "plotSpacing"
      = some (PVal.real (csp_to_plotSpacing v1)) := by
  have h1 : cdFree GW = true := by with_unfolding_all rfl
  have h2 : finalise_seed_brush (fun x => x) v1 "nm" 123 GW = some GWout := by
    with_unfolding_all rfl
  have h3 : GWout[2]? = some (PVal.dict [("plotSpacing", PVal.real 0.01)]) := by
    with_unfolding_all rfl
  have h4 : hasKey [("plotSpacing", PVal.real 0.01)] "plotSpacing" = true := by
    with_unfolding_all rfl
  exact ⟨h1, h2, h3, h4,
    patch_plotSpacing_all_occurrences_when_no_break (fun x => x) v1 "nm" 123
      GW GWout 2 [("plotSpacing", PVal.real 0.01)] h1 h2 h3 h4⟩
